import Mathlib

/-!
Shallow embedding of the Ludo rules engine in `game.js`.

Token positions follow the source encoding exactly:
  `-1`    : token in base,
  `0..51` : index on the shared 52-square track,
  `100+j` : index `j` (0..5) on the color's private home lane.
All positions are `Int`, dice values are `Nat` (the source draws 1..6).

DOM side effects that carry game-relevant state are modelled as state
fields: the roll button's `disabled` attribute (the code's only gate
against rolling, set by `checkWin` and `onRollDice`, cleared by
`finalizeMove`) becomes `rollBtnDisabled`.  A disabled button dispatches
no click events, so the click-level entry point `clickRollDice` guards
`onRollDice` behind that flag.  Pure-rendering effects (pixel
coordinates, CSS highlight classes, animation timing) are dropped;
the step-by-step animation's net effect on state is that the token ends
at the last entry of the computed `path`, which each branch of
`moveToken` records literally as the final loop value pushed by the
source.  `highlightMovableTokens` touches only CSS classes except for a
branch that re-enables the roll button when nothing is highlightable,
which is unreachable at its call site (`onRollDice` calls it only when
`canAnyTokenMove` is true, i.e. some token is highlightable).
-/

inductive Color where
  | red
  | blue
  | green
  | yellow
deriving DecidableEq, Fintype

/-- PLAYER_COLORS from game.js; turn order is the list order. -/
def PLAYER_COLORS : List Color := [.red, .blue, .green, .yellow]

/-- START_INDICES from game.js. -/
def START_INDICES : Color → Int
  | .red => 0
  | .blue => 13
  | .green => 26
  | .yellow => 39

/-- HOME_ENTRY_INDICES from game.js. -/
def HOME_ENTRY_INDICES : Color → Int
  | .red => 50
  | .blue => 11
  | .green => 24
  | .yellow => 37

/-- SAFE_SPOTS from game.js. -/
def SAFE_SPOTS : List Int := [0, 8, 13, 21, 26, 34, 39, 47]

/-- isSafeSpot from game.js. -/
def isSafeSpot (pos : Int) : Bool := SAFE_SPOTS.contains pos

/-- isHomePosition from game.js: pos >= 100. -/
def isHomePosition (pos : Int) : Bool := decide (100 ≤ pos)

/-- The mutable game state of game.js (`gameState`), restricted to the
fields the rules engine reads or writes.  `rollBtnDisabled` models the
roll button's DOM `disabled` attribute, which the code uses as its gate
on rolling. The pure-UI fields `selectedToken` and `moveAnimationQueue`
are omitted (never read by the rules logic). -/
structure GameState where
  tokens : Color → Fin 4 → Int
  currentPlayerIndex : Nat
  diceRoll : Option Nat
  rollCount : Nat
  isRolling : Bool
  winner : Option Color
  rollBtnDisabled : Bool

/-- initTokens plus the literal initializer of `gameState` in game.js:
all tokens at -1, red (index 0) to move, no pending dice, no winner. -/
def initState : GameState where
  tokens := fun _ _ => -1
  currentPlayerIndex := 0
  diceRoll := none
  rollCount := 0
  isRolling := false
  winner := none
  rollBtnDisabled := false

/-- `gameState.players[gameState.currentPlayerIndex]` from game.js. -/
def currentColor (st : GameState) : Color :=
  PLAYER_COLORS.getD st.currentPlayerIndex .red

/-- getNextPlayerIndex from game.js. -/
def getNextPlayerIndex (st : GameState) : Nat :=
  (st.currentPlayerIndex + 1) % 4

/-- isOccupiedByPlayer from game.js: some token of `playerColor` sits at `pos`. -/
def isOccupiedByPlayer (st : GameState) (playerColor : Color) (pos : Int) : Bool :=
  decide (∃ i : Fin 4, st.tokens playerColor i = pos)

/-- canMoveToken from game.js, branch for branch. -/
def canMoveToken (st : GameState) (playerColor : Color) (pos : Int) (dice : Nat) : Bool :=
  if pos = -1 then
    decide (dice = 6) && !(isOccupiedByPlayer st playerColor (START_INDICES playerColor))
  else if 0 ≤ pos ∧ pos < 52 then
    let distToHomeEntry := (HOME_ENTRY_INDICES playerColor - pos + 52) % 52
    if (dice : Int) ≤ distToHomeEntry then
      !(isOccupiedByPlayer st playerColor ((pos + dice) % 52))
    else
      let stepsIntoHome := (dice : Int) - distToHomeEntry - 1
      if 6 ≤ stepsIntoHome then false
      else !(isOccupiedByPlayer st playerColor (100 + stepsIntoHome))
  else if 100 ≤ pos then
    let homeIndex := pos - 100
    let targetHomeIndex := homeIndex + dice
    if 6 ≤ targetHomeIndex then false
    else !(isOccupiedByPlayer st playerColor (100 + targetHomeIndex))
  else false

/-- canAnyTokenMove from game.js: the first loop (dice 6, some token in
base, start square free of own tokens) or the second loop (some token
not in base that canMoveToken accepts). -/
def canAnyTokenMove (st : GameState) (playerColor : Color) (dice : Nat) : Bool :=
  (decide (dice = 6) && decide (∃ i : Fin 4, st.tokens playerColor i = -1)
     && !(isOccupiedByPlayer st playerColor (START_INDICES playerColor)))
  || decide (∃ i : Fin 4, st.tokens playerColor i ≠ -1 ∧
       canMoveToken st playerColor (st.tokens playerColor i) dice = true)

/-- killTokensAt from game.js: no effect on safe spots or home squares,
otherwise every token of another color at `pos` is sent to base (-1).
The source collects them with getTokensAtPosition and assigns -1 in a
loop; the pointwise update below is that loop's net effect. -/
def killTokensAt (st : GameState) (pos : Int) (exceptPlayer : Color) : GameState :=
  if isSafeSpot pos || isHomePosition pos then st
  else
    { st with tokens := fun c i =>
        if c ≠ exceptPlayer ∧ st.tokens c i = pos then -1 else st.tokens c i }

/-- Write one token's position (the net effect of animateTokenMovement,
which ends by storing the last path entry into `tokens[color][i].pos`). -/
def setTokenPos (st : GameState) (c : Color) (i : Fin 4) (p : Int) : GameState :=
  { st with tokens := fun c' i' => if c' = c ∧ i' = i then p else st.tokens c' i' }

/-- checkWin from game.js: all four tokens at 105 sets the winner and
disables the roll button. -/
def checkWin (c : Color) (st : GameState) : GameState :=
  if ∀ i : Fin 4, st.tokens c i = 105 then
    { st with winner := some c, rollBtnDisabled := true }
  else st

/-- finalizeMove from game.js (the unused tokenIndex parameter is
dropped): dice 6 keeps the turn and resets the roll counter, any other
dice advances the player by one mod 4; both clear the pending dice,
re-enable the roll button, clear isRolling, then run checkWin. -/
def finalizeMove (c : Color) (dice : Nat) (st : GameState) : GameState :=
  let st1 :=
    if dice = 6 then
      { st with rollCount := 0, diceRoll := none, rollBtnDisabled := false }
    else
      { st with currentPlayerIndex := getNextPlayerIndex st, diceRoll := none,
                rollCount := 0, rollBtnDisabled := false }
  checkWin c { st1 with isRolling := false }

/-- moveToken from game.js.  Returns the final state paired with the
ordered step sequence (`path` in the source) or the thrown error.  Each
branch sets `isRolling`, moves the token to the last path entry, kills
at the landing square where the source does, and runs finalizeMove from
the animation callback.  A position matching no branch (not -1, not
0..51, not >= 100) falls through the if/else chain and the source does
nothing. -/
def moveToken (st : GameState) (color : Color) (tokenIndex : Fin 4) (diceValue : Nat) :
    Except String (GameState × List Int) :=
  let startPos := st.tokens color tokenIndex
  if startPos = -1 then
    if diceValue ≠ 6 then .error "Cannot move token out of base without a 6"
    else if isOccupiedByPlayer st color (START_INDICES color) then
      .error "Start square occupied by own token"
    else
      let path : List Int := [START_INDICES color]
      let st1 := { setTokenPos st color tokenIndex (START_INDICES color) with isRolling := true }
      let st2 := killTokensAt st1 (START_INDICES color) color
      .ok (finalizeMove color diceValue st2, path)
  else if 0 ≤ startPos ∧ startPos < 52 then
    let distToHomeEntry := (HOME_ENTRY_INDICES color - startPos + 52) % 52
    if (diceValue : Int) ≤ distToHomeEntry then
      let path := (List.range' 1 diceValue).map fun k => (startPos + (k : Int)) % 52
      let dest := (startPos + (diceValue : Int)) % 52
      let st1 := { setTokenPos st color tokenIndex dest with isRolling := true }
      let st2 := killTokensAt st1 dest color
      .ok (finalizeMove color diceValue st2, path)
    else
      let stepsIntoHome := (diceValue : Int) - distToHomeEntry - 1
      let path :=
        ((List.range' 1 distToHomeEntry.toNat).map fun k => (startPos + (k : Int)) % 52)
          ++ ((List.range (stepsIntoHome.toNat + 1)).map fun k => (100 : Int) + (k : Int))
      let dest := 100 + stepsIntoHome
      let st1 := { setTokenPos st color tokenIndex dest with isRolling := true }
      .ok (finalizeMove color diceValue st1, path)
  else if 100 ≤ startPos then
    let path := (List.range' 1 diceValue).map fun k => startPos + (k : Int)
    let dest := startPos + (diceValue : Int)
    let st1 := { setTokenPos st color tokenIndex dest with isRolling := true }
    .ok (finalizeMove color diceValue st1, path)
  else .ok (st, [])

/-- The final state after moveToken (the source state if it threw). -/
def moveTokenState (st : GameState) (c : Color) (i : Fin 4) (dice : Nat) : GameState :=
  match moveToken st c i dice with
  | .ok (st', _) => st'
  | .error _ => st

/-- The step sequence moveToken computes (empty if it threw). -/
def moveTokenPath (st : GameState) (c : Color) (i : Fin 4) (dice : Nat) : List Int :=
  match moveToken st c i dice with
  | .ok (_, p) => p
  | .error _ => []

/-- Whether moveToken threw. -/
def moveTokenIsError (st : GameState) (c : Color) (i : Fin 4) (dice : Nat) : Bool :=
  match moveToken st c i dice with
  | .ok _ => false
  | .error _ => true

/-- The landing square of a move, read off the branch structure of
moveToken/canMoveToken (last entry of each branch's path). -/
def moveDest (_st : GameState) (c : Color) (pos : Int) (dice : Nat) : Int :=
  if pos = -1 then START_INDICES c
  else if 0 ≤ pos ∧ pos < 52 then
    let distToHomeEntry := (HOME_ENTRY_INDICES c - pos + 52) % 52
    if (dice : Int) ≤ distToHomeEntry then (pos + (dice : Int)) % 52
    else 100 + ((dice : Int) - distToHomeEntry - 1)
  else if 100 ≤ pos then pos + (dice : Int)
  else pos

/-- onTokenClick from game.js: rejects out-of-turn colors, a move in
flight, a missing roll, and a token canMoveToken refuses, all silently;
otherwise runs moveToken with the pending dice (an exception thrown by
moveToken propagates out of the handler before any mutation). -/
def onTokenClick (c : Color) (i : Fin 4) (st : GameState) : GameState :=
  if currentColor st ≠ c then st
  else if st.isRolling = true then st
  else
    match st.diceRoll with
    | none => st
    | some d =>
      if ¬ (canMoveToken st c (st.tokens c i) d = true) then st
      else
        match moveToken st c i d with
        | .ok (st', _) => st'
        | .error _ => st

/-- onRollDice from game.js, with the rolled value as an input: rejected
while a move is in flight or a roll is pending; otherwise records the
roll, bumps rollCount, disables the roll button, and if the current
player has no legal move the scheduled auto-pass runs finalizeMove. -/
def onRollDice (roll : Nat) (st : GameState) : GameState :=
  if st.isRolling = true ∨ st.diceRoll ≠ none then st
  else
    let st1 := { st with diceRoll := some roll, rollCount := st.rollCount + 1 }
    if canAnyTokenMove st1 (currentColor st1) roll = false then
      finalizeMove (currentColor st1) roll { st1 with rollBtnDisabled := true }
    else { st1 with rollBtnDisabled := true }

/-- A click on the roll button: a disabled button (checkWin's gate after
a win) dispatches no click event, so onRollDice only runs when the
button is enabled. -/
def clickRollDice (roll : Nat) (st : GameState) : GameState :=
  if st.rollBtnDisabled = true then st else onRollDice roll st

/-- One externally triggered engine transition: a dice roll (values the
source draws are 1..6) or a token click. -/
inductive LudoStep : GameState → GameState → Prop where
  | roll (s : GameState) (r : Nat) (h1 : 1 ≤ r) (h2 : r ≤ 6) :
      LudoStep s (clickRollDice r s)
  | click (s : GameState) (c : Color) (i : Fin 4) :
      LudoStep s (onTokenClick c i s)

/-- States reachable from the initial state by rolls and clicks. -/
inductive LudoReachable : GameState → Prop where
  | base : LudoReachable initState
  | step : ∀ {s s'}, LudoReachable s → LudoStep s s' → LudoReachable s'

/-! ### Concrete scenario states -/

/-- Yellow one square from victory: three tokens finished (105), the
fourth at home index 4 (position 104), yellow to move with a pending
roll of 1. -/
def yState : GameState where
  tokens := fun c i =>
    match c with
    | .yellow => if i.val = 3 then 104 else 105
    | _ => -1
  currentPlayerIndex := 3
  diceRoll := some 1
  rollCount := 1
  isRolling := false
  winner := none
  rollBtnDisabled := true

/-- Red with one token at track index 47, pending roll of 6. -/
def c9State : GameState where
  tokens := fun c i => if c = .red ∧ i.val = 0 then 47 else -1
  currentPlayerIndex := 0
  diceRoll := some 6
  rollCount := 1
  isRolling := false
  winner := none
  rollBtnDisabled := true

/-- Red tokens at track 1 and track 4, pending roll of 3: moving the
token at 1 is illegal (own token on the landing square 4). -/
def c3State : GameState where
  tokens := fun c i =>
    if c = .red ∧ i.val = 0 then 1
    else if c = .red ∧ i.val = 1 then 4
    else -1
  currentPlayerIndex := 0
  diceRoll := some 3
  rollCount := 1
  isRolling := false
  winner := none
  rollBtnDisabled := true

/-- Red token at track 1, blue tokens at track 4 (the landing square of
red's pending roll of 3, not a safe spot) and at track 10. -/
def c2State : GameState where
  tokens := fun c i =>
    if c = .red ∧ i.val = 0 then 1
    else if c = .blue ∧ i.val = 0 then 4
    else if c = .blue ∧ i.val = 1 then 10
    else -1
  currentPlayerIndex := 0
  diceRoll := some 3
  rollCount := 1
  isRolling := false
  winner := none
  rollBtnDisabled := true

/-- Yellow token at home-lane start (position 100), the rest in base. -/
def c8State : GameState where
  tokens := fun c i => if c = .yellow ∧ i.val = 0 then 100 else -1
  currentPlayerIndex := 3
  diceRoll := some 2
  rollCount := 1
  isRolling := false
  winner := none
  rollBtnDisabled := true

/-- The configuration checkWin leaves behind after a yellow win: all
yellow tokens at 105, winner set, roll button disabled, no pending
dice. -/
def winState : GameState where
  tokens := fun c _ => if c = .yellow then 105 else -1
  currentPlayerIndex := 0
  diceRoll := none
  rollCount := 0
  isRolling := false
  winner := some .yellow
  rollBtnDisabled := true

/-- A four-event play from the initial state: red rolls 6, brings token
0 out to its start square, rolls again (1), and moves the token to the
non-safe track square 1. -/
def c6wit : GameState :=
  onTokenClick .red 0 (clickRollDice 1 (onTokenClick .red 0 (clickRollDice 6 initState)))

/-! ### Field-level lemmas about the engine's primitive operations -/

lemma checkWin_tokens (c : Color) (st : GameState) :
    (checkWin c st).tokens = st.tokens := by
  unfold checkWin; split <;> rfl

lemma checkWin_currentPlayerIndex (c : Color) (st : GameState) :
    (checkWin c st).currentPlayerIndex = st.currentPlayerIndex := by
  unfold checkWin; split <;> rfl

lemma checkWin_diceRoll (c : Color) (st : GameState) :
    (checkWin c st).diceRoll = st.diceRoll := by
  unfold checkWin; split <;> rfl

lemma finalizeMove_tokens (c : Color) (d : Nat) (st : GameState) :
    (finalizeMove c d st).tokens = st.tokens := by
  simp only [finalizeMove, checkWin_tokens]
  split <;> rfl

lemma finalizeMove_currentPlayerIndex (c : Color) (d : Nat) (st : GameState) :
    (finalizeMove c d st).currentPlayerIndex =
      if d = 6 then st.currentPlayerIndex else (st.currentPlayerIndex + 1) % 4 := by
  simp only [finalizeMove, checkWin_currentPlayerIndex]
  split <;> rfl

lemma finalizeMove_diceRoll (c : Color) (d : Nat) (st : GameState) :
    (finalizeMove c d st).diceRoll = none := by
  simp only [finalizeMove, checkWin_diceRoll]
  split <;> rfl

lemma killTokensAt_tokens (st : GameState) (pos : Int) (e : Color) (c : Color) (i : Fin 4) :
    (killTokensAt st pos e).tokens c i =
      if (isSafeSpot pos || isHomePosition pos) = true then st.tokens c i
      else if c ≠ e ∧ st.tokens c i = pos then -1 else st.tokens c i := by
  unfold killTokensAt
  split <;> simp_all

lemma killTokensAt_of_home (st : GameState) (pos : Int) (e : Color) (h : 100 ≤ pos) :
    killTokensAt st pos e = st := by
  unfold killTokensAt
  have hc : (isSafeSpot pos || isHomePosition pos) = true := by
    simp [isHomePosition, h]
  rw [if_pos hc]

/-! ### Characterization of moveToken on legal moves -/

lemma canMoveToken_base (st : GameState) (c : Color) (dice : Nat)
    (h1 : st.tokens c i = -1)
    (h : canMoveToken st c (st.tokens c i) dice = true) :
    dice = 6 ∧ isOccupiedByPlayer st c (START_INDICES c) = false := by
  rw [h1] at h
  unfold canMoveToken at h
  rw [if_pos rfl] at h
  simp only [Bool.and_eq_true, decide_eq_true_eq, Bool.not_eq_true'] at h
  exact h

lemma moveToken_ok_eq (st : GameState) (c : Color) (i : Fin 4) (dice : Nat)
    (h : canMoveToken st c (st.tokens c i) dice = true) :
    ∃ p, moveToken st c i dice =
      .ok (finalizeMove c dice
             (killTokensAt
                { setTokenPos st c i (moveDest st c (st.tokens c i) dice) with isRolling := true }
                (moveDest st c (st.tokens c i) dice) c), p) := by
  by_cases h1 : st.tokens c i = -1
  · obtain ⟨h6, hocc⟩ := canMoveToken_base st c dice h1 h
    refine ⟨[START_INDICES c], ?_⟩
    simp only [moveToken, moveDest]
    rw [if_pos h1, if_pos h1, if_neg (fun hh => hh h6),
        if_neg (by simp [hocc] : ¬ isOccupiedByPlayer st c (START_INDICES c) = true)]
  · by_cases h2 : 0 ≤ st.tokens c i ∧ st.tokens c i < 52
    · by_cases h3 : (dice : Int) ≤ (HOME_ENTRY_INDICES c - st.tokens c i + 52) % 52
      · refine ⟨(List.range' 1 dice).map (fun k => (st.tokens c i + (k : Int)) % 52), ?_⟩
        simp only [moveToken, moveDest]
        rw [if_neg h1, if_neg h1, if_pos h2, if_pos h2, if_pos h3, if_pos h3]
      · refine ⟨((List.range' 1 ((HOME_ENTRY_INDICES c - st.tokens c i + 52) % 52).toNat).map
            fun k => (st.tokens c i + (k : Int)) % 52)
            ++ ((List.range
                  (((dice : Int) - (HOME_ENTRY_INDICES c - st.tokens c i + 52) % 52 - 1).toNat
                    + 1)).map fun k => (100 : Int) + (k : Int)), ?_⟩
        simp only [moveToken, moveDest]
        rw [if_neg h1, if_neg h1, if_pos h2, if_pos h2, if_neg h3, if_neg h3,
            killTokensAt_of_home _ _ _ (by omega)]
    · by_cases h4 : 100 ≤ st.tokens c i
      · refine ⟨(List.range' 1 dice).map (fun k => st.tokens c i + (k : Int)), ?_⟩
        simp only [moveToken, moveDest]
        rw [if_neg h1, if_neg h1, if_neg h2, if_neg h2, if_pos h4, if_pos h4,
            killTokensAt_of_home _ _ _ (by omega)]
      · exfalso
        unfold canMoveToken at h
        rw [if_neg h1, if_neg h2, if_neg h4] at h
        simp at h

lemma moveTokenState_eq (st : GameState) (c : Color) (i : Fin 4) (dice : Nat)
    (h : canMoveToken st c (st.tokens c i) dice = true) :
    moveTokenState st c i dice =
      finalizeMove c dice
        (killTokensAt
           { setTokenPos st c i (moveDest st c (st.tokens c i) dice) with isRolling := true }
           (moveDest st c (st.tokens c i) dice) c) := by
  obtain ⟨p, hp⟩ := moveToken_ok_eq st c i dice h
  unfold moveTokenState
  rw [hp]

lemma moveTokenIsError_false (st : GameState) (c : Color) (i : Fin 4) (dice : Nat)
    (h : canMoveToken st c (st.tokens c i) dice = true) :
    moveTokenIsError st c i dice = false := by
  obtain ⟨p, hp⟩ := moveToken_ok_eq st c i dice h
  unfold moveTokenIsError
  rw [hp]

lemma moveTokenState_tokens (st : GameState) (c : Color) (i : Fin 4) (dice : Nat)
    (h : canMoveToken st c (st.tokens c i) dice = true)
    (dest : Int) (hdest : dest = moveDest st c (st.tokens c i) dice)
    (c' : Color) (i' : Fin 4) :
    (moveTokenState st c i dice).tokens c' i' =
      if c' = c ∧ i' = i then dest
      else if (isSafeSpot dest || isHomePosition dest) = false ∧ c' ≠ c ∧ st.tokens c' i' = dest
      then -1
      else st.tokens c' i' := by
  rw [moveTokenState_eq st c i dice h, finalizeMove_tokens, ← hdest, killTokensAt_tokens]
  by_cases hm : c' = c ∧ i' = i
  · have hsel : ({ setTokenPos st c i dest with isRolling := true } : GameState).tokens c' i'
        = dest := by
      simp [setTokenPos, hm.1, hm.2]
    rw [hsel, if_pos hm]
    split_ifs with hb hc
    · rfl
    · exact absurd hc.1 (by simp [hm.1])
    · rfl
  · have hsel : ({ setTokenPos st c i dest with isRolling := true } : GameState).tokens c' i'
        = st.tokens c' i' := by
      simp only [setTokenPos]
      exact if_neg hm
    rw [hsel, if_neg hm]
    split_ifs <;> simp_all

lemma killTokensAt_currentPlayerIndex (st : GameState) (pos : Int) (e : Color) :
    (killTokensAt st pos e).currentPlayerIndex = st.currentPlayerIndex := by
  unfold killTokensAt; split <;> rfl

lemma moveTokenState_currentPlayerIndex (st : GameState) (c : Color) (i : Fin 4) (dice : Nat)
    (h : canMoveToken st c (st.tokens c i) dice = true) :
    (moveTokenState st c i dice).currentPlayerIndex =
      if dice = 6 then st.currentPlayerIndex else (st.currentPlayerIndex + 1) % 4 := by
  rw [moveTokenState_eq st c i dice h, finalizeMove_currentPlayerIndex,
      killTokensAt_currentPlayerIndex]
  rfl

lemma moveTokenState_diceRoll (st : GameState) (c : Color) (i : Fin 4) (dice : Nat)
    (h : canMoveToken st c (st.tokens c i) dice = true) :
    (moveTokenState st c i dice).diceRoll = none := by
  rw [moveTokenState_eq st c i dice h, finalizeMove_diceRoll]

/-! ### Lemmas about the entry points -/

lemma canMoveToken_congr (s1 s2 : GameState) (c : Color) (pos : Int) (dice : Nat)
    (h : s1.tokens = s2.tokens) :
    canMoveToken s1 c pos dice = canMoveToken s2 c pos dice := by
  unfold canMoveToken isOccupiedByPlayer
  rw [h]

lemma canAnyTokenMove_congr (s1 s2 : GameState) (c : Color) (dice : Nat)
    (h : s1.tokens = s2.tokens) :
    canAnyTokenMove s1 c dice = canAnyTokenMove s2 c dice := by
  unfold canAnyTokenMove isOccupiedByPlayer
  rw [h]
  have hc : ∀ p, canMoveToken s1 c p dice = canMoveToken s2 c p dice :=
    fun p => canMoveToken_congr s1 s2 c p dice h
  simp only [hc]

lemma onRollDice_tokens (r : Nat) (st : GameState) :
    (onRollDice r st).tokens = st.tokens := by
  unfold onRollDice
  split
  · rfl
  · dsimp only
    split
    · rw [finalizeMove_tokens]
    · rfl

lemma clickRollDice_tokens (r : Nat) (st : GameState) :
    (clickRollDice r st).tokens = st.tokens := by
  unfold clickRollDice
  split
  · rfl
  · exact onRollDice_tokens r st

lemma onTokenClick_cases (c : Color) (i : Fin 4) (st : GameState) :
    onTokenClick c i st = st ∨
    ∃ d, st.diceRoll = some d ∧ canMoveToken st c (st.tokens c i) d = true ∧
      onTokenClick c i st = moveTokenState st c i d := by
  unfold onTokenClick
  split
  · exact Or.inl rfl
  · split
    · exact Or.inl rfl
    · split
      · exact Or.inl rfl
      · rename_i d heq
        split
        · exact Or.inl rfl
        · rename_i hcan
          right
          refine ⟨d, heq, not_not.mp hcan, ?_⟩
          unfold moveTokenState
          cases hmt : moveToken st c i d with
          | ok pr =>
            obtain ⟨st', p⟩ := pr
            simp [hmt]
          | error e =>
            simp [hmt]

lemma onTokenClick_of_diceRoll_none (c : Color) (i : Fin 4) (st : GameState)
    (h : st.diceRoll = none) :
    onTokenClick c i st = st := by
  unfold onTokenClick
  split
  · rfl
  · split
    · rfl
    · split
      · rfl
      · rename_i d heq
        rw [h] at heq
        exact absurd heq (by simp)

lemma clickRollDice_of_disabled (r : Nat) (st : GameState)
    (h : st.rollBtnDisabled = true) :
    clickRollDice r st = st := by
  unfold clickRollDice
  rw [if_pos h]

lemma onTokenClick_of_not_canMove (c : Color) (i : Fin 4) (st : GameState) (d : Nat)
    (hd : st.diceRoll = some d)
    (h : canMoveToken st c (st.tokens c i) d = false) :
    onTokenClick c i st = st := by
  rcases onTokenClick_cases c i st with he | ⟨d', hd', hcan, _⟩
  · exact he
  · rw [hd] at hd'
    cases hd'
    exact absurd hcan (by simp [h])

lemma moveDest_bound (st : GameState) (c : Color) (pos : Int) (dice : Nat)
    (h : canMoveToken st c pos dice = true)
    (hd : 100 ≤ moveDest st c pos dice) :
    moveDest st c pos dice ≤ 105 := by
  simp only [canMoveToken] at h
  simp only [moveDest] at hd ⊢
  by_cases h1 : pos = -1
  · rw [if_pos h1] at hd
    exfalso
    cases c <;> simp [START_INDICES] at hd
  · by_cases h2 : 0 ≤ pos ∧ pos < 52
    · by_cases h3 : (dice : Int) ≤ (HOME_ENTRY_INDICES c - pos + 52) % 52
      · rw [if_neg h1, if_pos h2, if_pos h3] at hd
        exfalso
        have := Int.emod_lt_of_pos (pos + (dice : Int)) (by norm_num : (0:Int) < 52)
        omega
      · rw [if_neg h1, if_pos h2, if_neg h3] at hd ⊢
        rw [if_neg h1, if_pos h2, if_neg h3] at h
        by_cases hov : 6 ≤ (dice : Int) - (HOME_ENTRY_INDICES c - pos + 52) % 52 - 1
        · rw [if_pos hov] at h
          exact absurd h (by simp)
        · omega
    · by_cases h4 : 100 ≤ pos
      · rw [if_neg h1, if_neg h2, if_pos h4] at hd ⊢
        rw [if_neg h1, if_neg h2, if_pos h4] at h
        by_cases hov : 6 ≤ pos - 100 + (dice : Int)
        · rw [if_pos hov] at h
          exact absurd h (by simp)
        · omega
      · rw [if_neg h1, if_neg h2, if_neg h4] at h
        exact absurd h (by simp)

lemma moveTokenState_track_occupant (s : GameState) (c : Color) (i : Fin 4) (d : Nat)
    (hcan : canMoveToken s c (s.tokens c i) d = true)
    (p : Int) (h0 : 0 ≤ p) (hp52 : p < 52) (hsafe : isSafeSpot p = false)
    (c1 : Color) (i1 : Fin 4)
    (ht : (moveTokenState s c i d).tokens c1 i1 = p) :
    (c1 = c ∧ moveDest s c (s.tokens c i) d = p) ∨
    (s.tokens c1 i1 = p ∧ (moveDest s c (s.tokens c i) d = p → c1 = c)) := by
  rw [moveTokenState_tokens s c i d hcan _ rfl c1 i1] at ht
  split_ifs at ht with hm hk
  · exact Or.inl ⟨hm.1, ht⟩
  · exact absurd ht (by omega)
  · refine Or.inr ⟨ht, fun hdp => ?_⟩
    by_contra hne
    have hhome : isHomePosition p = false := by
      simp only [isHomePosition, decide_eq_false_iff_not]
      omega
    exact hk ⟨by rw [hdp, hsafe, hhome]; rfl, hne, ht.trans hdp.symm⟩

lemma c6wit_reachable : LudoReachable c6wit :=
  LudoReachable.step
    (LudoReachable.step
      (LudoReachable.step
        (LudoReachable.step LudoReachable.base
          (LudoStep.roll initState 6 (by omega) (by omega)))
        (LudoStep.click _ .red 0))
      (LudoStep.roll _ 1 (by omega) (by omega)))
    (LudoStep.click _ .red 0)

/-! ### Claim theorems -/

/-- Claim C1: the spec scenario says that with three yellow tokens
Finished and the fourth at Home(4), dice 1 is legal and wins.  The code
disagrees: canMoveToken also applies the same-color occupancy check to
home position 105, which yellow's three finished tokens occupy, so the
move is rejected, the click is a no-op, and the winner stays unset.
Consequently checkWin's all-four-at-105 condition can never become
true once one token has finished. -/
theorem spec_c1_winning_move_rejected :
    canMoveToken yState .yellow (yState.tokens .yellow 3) 1 = false ∧
    onTokenClick .yellow 3 yState = yState ∧
    (onTokenClick .yellow 3 yState).winner = none := by
  have h2 := onTokenClick_of_not_canMove .yellow 3 yState 1 rfl (by decide)
  exact ⟨by decide, h2, by rw [h2]; rfl⟩

/-- Claim C9: a red token at Track(47) with dice 6 legally moves to
Home(2) (position 102), and the engine's step sequence for the move is
exactly Track(48), Track(49), Track(50), Home(0), Home(1), Home(2). -/
theorem spec_c9_path_sequence :
    canMoveToken c9State .red (c9State.tokens .red 0) 6 = true ∧
    moveTokenPath c9State .red 0 6 = [48, 49, 50, 100, 101, 102] ∧
    (moveTokenState c9State .red 0 6).tokens .red 0 = 102 := by
  decide

/-- Claim C3 counterexample: in c3State the move (red, token 0, dice 3)
is illegal (canMoveToken is false because red's own token occupies the
landing square 4), yet moveToken raises no error and mutates the state,
moving the token from 1 to 4 — refuting the claim that every illegal
move fails with an illegal-move error and no state change. -/
theorem spec_c3_counterexample :
    canMoveToken c3State .red (c3State.tokens .red 0) 3 = false ∧
    moveTokenIsError c3State .red 0 3 = false ∧
    (moveTokenState c3State .red 0 3).tokens .red 0 = 4 ∧
    c3State.tokens .red 0 = 1 := by
  decide

/-- Claim C3, amended: when the pending roll's move for a token is not
legal, the engine's entry point onTokenClick makes no state change at
all — it rejects silently rather than with an error (moveToken itself
validates only base exits). -/
theorem spec_c3_illegal_move_no_mutation :
    ∀ (st : GameState) (c : Color) (i : Fin 4) (d : Nat),
      st.diceRoll = some d → canMoveToken st c (st.tokens c i) d = false →
      onTokenClick c i st = st :=
  fun st c i d hd h => onTokenClick_of_not_canMove c i st d hd h

theorem spec_c3_witness :
    c3State.diceRoll = some 3 ∧
    canMoveToken c3State .red (c3State.tokens .red 0) 3 = false ∧
    onTokenClick .red 0 c3State = c3State :=
  ⟨rfl, by decide, spec_c3_illegal_move_no_mutation c3State .red 0 3 rfl (by decide)⟩

/-- Claim C4: for a token on shared-track index pos, with
d = (homeEntry - pos + 52) mod 52: if dice <= d the destination is
Track((pos + dice) mod 52) and the move is legal iff that square holds
no same-color token; if dice > d the destination is
Home(dice - d - 1) and the move is legal iff dice - d - 1 <= 5 and that
home square holds no same-color token.  Other colors' occupancy never
makes the move illegal (only isOccupiedByPlayer for the mover's own
color appears in the condition). -/
theorem spec_c4_track_decision_table :
    ∀ (st : GameState) (c : Color) (pos : Int) (dice : Nat),
      0 ≤ pos → pos < 52 →
      (((dice : Int) ≤ (HOME_ENTRY_INDICES c - pos + 52) % 52 →
          (canMoveToken st c pos dice = true ↔
            isOccupiedByPlayer st c ((pos + dice) % 52) = false)) ∧
       ((HOME_ENTRY_INDICES c - pos + 52) % 52 < (dice : Int) →
          (canMoveToken st c pos dice = true ↔
            ((dice : Int) - (HOME_ENTRY_INDICES c - pos + 52) % 52 - 1 ≤ 5 ∧
             isOccupiedByPlayer st c
               (100 + ((dice : Int) - (HOME_ENTRY_INDICES c - pos + 52) % 52 - 1)) =
               false)))) := by
  intro st c pos dice h0 h1
  have hne : ¬ pos = -1 := by omega
  have hr : 0 ≤ pos ∧ pos < 52 := ⟨h0, h1⟩
  constructor
  · intro hle
    simp only [canMoveToken]
    rw [if_neg hne, if_pos hr, if_pos hle]
    simp
  · intro hgt
    simp only [canMoveToken]
    rw [if_neg hne, if_pos hr, if_neg (by omega : ¬ ((dice : Int) ≤
        (HOME_ENTRY_INDICES c - pos + 52) % 52))]
    by_cases hov : 6 ≤ (dice : Int) - (HOME_ENTRY_INDICES c - pos + 52) % 52 - 1
    · rw [if_pos hov]
      constructor
      · intro hf
        exact absurd hf (by simp)
      · rintro ⟨ha, _⟩
        omega
    · rw [if_neg hov]
      constructor
      · intro hb
        exact ⟨by omega, by simpa using hb⟩
      · rintro ⟨_, hb⟩
        simpa using hb

theorem spec_c4_witness :
    (0 : Int) ≤ 5 ∧ (5 : Int) < 52 ∧ canMoveToken initState .red 5 3 = true :=
  ⟨by decide, by decide,
   ((spec_c4_track_decision_table initState .red 5 3 (by decide) (by decide)).1
      (by decide)).mpr (by decide)⟩

/-- Claim C2: after a legal move, if the landing square is a non-safe
shared-track index then every opponent token that occupied that exact
index is at base (-1); and if the landing square is a safe track index
or any home-lane square, no opponent token's position changes. -/
theorem spec_c2_capture_rule :
    ∀ (st : GameState) (c : Color) (i : Fin 4) (dice : Nat),
      canMoveToken st c (st.tokens c i) dice = true →
      ((0 ≤ moveDest st c (st.tokens c i) dice ∧ moveDest st c (st.tokens c i) dice < 52 ∧
          isSafeSpot (moveDest st c (st.tokens c i) dice) = false) →
        ∀ (c' : Color) (i' : Fin 4), c' ≠ c →
          st.tokens c' i' = moveDest st c (st.tokens c i) dice →
          (moveTokenState st c i dice).tokens c' i' = -1) ∧
      ((isSafeSpot (moveDest st c (st.tokens c i) dice) = true ∨
          100 ≤ moveDest st c (st.tokens c i) dice) →
        ∀ (c' : Color) (i' : Fin 4), c' ≠ c →
          (moveTokenState st c i dice).tokens c' i' = st.tokens c' i') := by
  intro st c i dice h
  constructor
  · rintro ⟨hd0, hd52, hsafe⟩ c' i' hne hat
    rw [moveTokenState_tokens st c i dice h _ rfl c' i']
    have hhome : isHomePosition (moveDest st c (st.tokens c i) dice) = false := by
      simp only [isHomePosition, decide_eq_false_iff_not]
      omega
    rw [if_neg (by rintro ⟨hc, _⟩; exact hne hc),
        if_pos ⟨by rw [hsafe, hhome]; rfl, hne, hat⟩]
  · intro hsh c' i' hne
    have hsh' : (isSafeSpot (moveDest st c (st.tokens c i) dice) ||
        isHomePosition (moveDest st c (st.tokens c i) dice)) = true := by
      rcases hsh with h' | h'
      · rw [h']; rfl
      · have : isHomePosition (moveDest st c (st.tokens c i) dice) = true := by
          simp [isHomePosition, h']
        rw [this, Bool.or_true]
    rw [moveTokenState_tokens st c i dice h _ rfl c' i',
        if_neg (by rintro ⟨hc, _⟩; exact hne hc),
        if_neg (by rintro ⟨hf, _, _⟩; rw [hsh'] at hf; cases hf)]

theorem spec_c2_witness :
    canMoveToken c2State .red (c2State.tokens .red 0) 3 = true ∧
    (0 ≤ moveDest c2State .red (c2State.tokens .red 0) 3 ∧
      moveDest c2State .red (c2State.tokens .red 0) 3 < 52 ∧
      isSafeSpot (moveDest c2State .red (c2State.tokens .red 0) 3) = false) ∧
    Color.blue ≠ Color.red ∧
    c2State.tokens .blue 0 = moveDest c2State .red (c2State.tokens .red 0) 3 ∧
    (moveTokenState c2State .red 0 3).tokens .blue 0 = -1 :=
  ⟨by decide, ⟨by decide, by decide, by decide⟩, by decide, by decide,
   (spec_c2_capture_rule c2State .red 0 3 (by decide)).1
     ⟨by decide, by decide, by decide⟩ .blue 0 (by decide) (by decide)⟩

/-- Claim C5: across a legal applied move and an auto-pass (a roll with
no legal move), dice 6 leaves the current player index unchanged and
clears the pending dice (the same color may roll again); any other dice
advances the current player index by exactly one modulo 4 and clears
the pending dice. -/
theorem spec_c5_turn_advance :
    (∀ (st : GameState) (c : Color) (i : Fin 4) (dice : Nat),
       canMoveToken st c (st.tokens c i) dice = true →
       (moveTokenState st c i dice).currentPlayerIndex =
         (if dice = 6 then st.currentPlayerIndex else (st.currentPlayerIndex + 1) % 4) ∧
       (moveTokenState st c i dice).diceRoll = none) ∧
    (∀ (st : GameState) (roll : Nat),
       st.isRolling = false → st.diceRoll = none →
       canAnyTokenMove st (currentColor st) roll = false →
       (onRollDice roll st).currentPlayerIndex =
         (if roll = 6 then st.currentPlayerIndex else (st.currentPlayerIndex + 1) % 4) ∧
       (onRollDice roll st).diceRoll = none) := by
  constructor
  · intro st c i dice h
    exact ⟨moveTokenState_currentPlayerIndex st c i dice h,
           moveTokenState_diceRoll st c i dice h⟩
  · intro st roll h1 h2 h3
    unfold onRollDice
    rw [if_neg (by simp [h1, h2])]
    have hc : canAnyTokenMove { st with diceRoll := some roll, rollCount := st.rollCount + 1 }
        (currentColor { st with diceRoll := some roll, rollCount := st.rollCount + 1 })
        roll = false := by
      rw [canAnyTokenMove_congr
            { st with diceRoll := some roll, rollCount := st.rollCount + 1 } st
            (currentColor { st with diceRoll := some roll, rollCount := st.rollCount + 1 })
            roll rfl]
      exact h3
    rw [if_pos hc]
    constructor
    · rw [finalizeMove_currentPlayerIndex]
    · rw [finalizeMove_diceRoll]

theorem spec_c5_witness :
    canMoveToken c2State .red (c2State.tokens .red 0) 3 = true ∧
    ((moveTokenState c2State .red 0 3).currentPlayerIndex =
       (if 3 = 6 then c2State.currentPlayerIndex else (c2State.currentPlayerIndex + 1) % 4) ∧
     (moveTokenState c2State .red 0 3).diceRoll = none) ∧
    (initState.isRolling = false ∧ initState.diceRoll = none ∧
      canAnyTokenMove initState (currentColor initState) 3 = false) ∧
    ((onRollDice 3 initState).currentPlayerIndex =
       (if 3 = 6 then initState.currentPlayerIndex else (initState.currentPlayerIndex + 1) % 4) ∧
     (onRollDice 3 initState).diceRoll = none) :=
  ⟨by decide, spec_c5_turn_advance.1 c2State .red 0 3 (by decide),
   ⟨rfl, rfl, by decide⟩,
   spec_c5_turn_advance.2 initState 3 rfl rfl (by decide)⟩

/-- Claim C8: a move from Home(j) is legal only when j + dice <= 5, and
applying any legal move to a state whose home-lane positions all lie in
100..105 leaves every token's home-lane position in 100..105 (home
index in 0..5; no encoded position above 105 ever appears). -/
theorem spec_c8_home_bound :
    (∀ (st : GameState) (c : Color) (pos : Int) (dice : Nat),
       100 ≤ pos → canMoveToken st c pos dice = true → pos - 100 + (dice : Int) ≤ 5) ∧
    (∀ (st : GameState) (c : Color) (i : Fin 4) (dice : Nat),
       (∀ (c' : Color) (i' : Fin 4), 100 ≤ st.tokens c' i' → st.tokens c' i' ≤ 105) →
       canMoveToken st c (st.tokens c i) dice = true →
       ∀ (c' : Color) (i' : Fin 4), 100 ≤ (moveTokenState st c i dice).tokens c' i' →
         (moveTokenState st c i dice).tokens c' i' ≤ 105) := by
  constructor
  · intro st c pos dice hp h
    simp only [canMoveToken] at h
    rw [if_neg (by omega), if_neg (by omega), if_pos hp] at h
    by_cases hov : 6 ≤ pos - 100 + (dice : Int)
    · rw [if_pos hov] at h
      exact absurd h (by simp)
    · omega
  · intro st c i dice hwf h c' i' hge
    rw [moveTokenState_tokens st c i dice h _ rfl c' i'] at hge ⊢
    split_ifs at hge ⊢ with hm hk
    · exact moveDest_bound st c (st.tokens c i) dice h hge
    · omega
    · exact hwf c' i' hge

theorem spec_c8_witness :
    ((100 : Int) ≤ 100 ∧ canMoveToken c8State .yellow 100 2 = true ∧
      (100 : Int) - 100 + (2 : Nat) ≤ 5) ∧
    ((∀ (c' : Color) (i' : Fin 4), 100 ≤ c9State.tokens c' i' → c9State.tokens c' i' ≤ 105) ∧
      canMoveToken c9State .red (c9State.tokens .red 0) 6 = true ∧
      100 ≤ (moveTokenState c9State .red 0 6).tokens .red 0 ∧
      (moveTokenState c9State .red 0 6).tokens .red 0 ≤ 105) :=
  ⟨⟨by decide, by decide,
    spec_c8_home_bound.1 c8State .yellow 100 2 (by decide) (by decide)⟩,
   ⟨by decide, by decide, by decide,
    spec_c8_home_bound.2 c9State .red 0 6 (by decide) (by decide) .red 0 (by decide)⟩⟩

/-- Claim C10: applying a legal move by color c on token slot i changes
at most the moved token's own position and the positions of opponent
tokens standing on the move's landing square; every other token of
every color keeps its exact position. -/
theorem spec_c10_frame :
    ∀ (st : GameState) (c : Color) (i : Fin 4) (dice : Nat),
      canMoveToken st c (st.tokens c i) dice = true →
      ∀ (c' : Color) (i' : Fin 4), ¬(c' = c ∧ i' = i) →
        ¬(c' ≠ c ∧ st.tokens c' i' = moveDest st c (st.tokens c i) dice) →
        (moveTokenState st c i dice).tokens c' i' = st.tokens c' i' := by
  intro st c i dice h c' i' hm hx
  rw [moveTokenState_tokens st c i dice h _ rfl c' i', if_neg hm,
      if_neg (by rintro ⟨_, h2, h3⟩; exact hx ⟨h2, h3⟩)]

theorem spec_c10_witness :
    canMoveToken c2State .red (c2State.tokens .red 0) 3 = true ∧
    ¬(Color.blue = Color.red ∧ (1 : Fin 4) = 0) ∧
    ¬(Color.blue ≠ Color.red ∧
        c2State.tokens .blue 1 = moveDest c2State .red (c2State.tokens .red 0) 3) ∧
    (moveTokenState c2State .red 0 3).tokens .blue 1 = c2State.tokens .blue 1 :=
  ⟨by decide, by decide, by decide,
   spec_c10_frame c2State .red 0 3 (by decide) .blue 1 (by decide) (by decide)⟩

/-- Claim C6: in every state reachable from the initial state by rolls
and token clicks, two tokens of different colors never co-occupy a
non-safe shared-track index (landing there captures every opponent
token on the square). -/
theorem spec_c6_track_exclusivity :
    ∀ (s : GameState), LudoReachable s →
      ∀ (p : Int) (c1 : Color) (i1 : Fin 4) (c2 : Color) (i2 : Fin 4),
        0 ≤ p → p < 52 → isSafeSpot p = false →
        s.tokens c1 i1 = p → s.tokens c2 i2 = p → c1 = c2 := by
  intro s hs
  induction hs with
  | base =>
    intro p c1 i1 c2 i2 h0 h1 h2 ht1 ht2
    exfalso
    have hm : (-1 : Int) = p := ht1
    omega
  | step hr hstep ih =>
    rename_i s0 s1
    cases hstep with
    | roll r hr1 hr2 =>
      intro p c1 i1 c2 i2 h0 h1 h2 ht1 ht2
      rw [clickRollDice_tokens] at ht1 ht2
      exact ih p c1 i1 c2 i2 h0 h1 h2 ht1 ht2
    | click c i =>
      intro p c1 i1 c2 i2 h0 h1 h2 ht1 ht2
      rcases onTokenClick_cases c i s0 with he | ⟨d, hd, hcan, he⟩
      · rw [he] at ht1 ht2
        exact ih p c1 i1 c2 i2 h0 h1 h2 ht1 ht2
      · rw [he] at ht1 ht2
        rcases moveTokenState_track_occupant s0 c i d hcan p h0 h1 h2 c1 i1 ht1 with
          ⟨hc1, hdp⟩ | ⟨hold1, himp1⟩
        · rcases moveTokenState_track_occupant s0 c i d hcan p h0 h1 h2 c2 i2 ht2 with
            ⟨hc2, _⟩ | ⟨_, himp2⟩
          · exact hc1.trans hc2.symm
          · exact hc1.trans (himp2 hdp).symm
        · rcases moveTokenState_track_occupant s0 c i d hcan p h0 h1 h2 c2 i2 ht2 with
            ⟨hc2, hdp⟩ | ⟨hold2, _⟩
          · exact (himp1 hdp).trans hc2.symm
          · exact ih p c1 i1 c2 i2 h0 h1 h2 hold1 hold2

theorem spec_c6_witness :
    LudoReachable c6wit ∧ (0 : Int) ≤ 1 ∧ (1 : Int) < 52 ∧ isSafeSpot 1 = false ∧
    c6wit.tokens .red 0 = 1 ∧ Color.red = Color.red :=
  ⟨c6wit_reachable, by decide, by decide, by decide, by decide,
   spec_c6_track_exclusivity c6wit c6wit_reachable 1 .red 0 .red 0
     (by decide) (by decide) (by decide) (by decide) (by decide)⟩

/-- Claim C7: in the configuration checkWin leaves behind whenever it
sets a winner (roll button disabled, no pending dice), every roll-button
click and every token click is an exact no-op, so no token moves, no
roll becomes pending, and the winner never changes under any further
step; and every finalizeMove either leaves the winner unchanged or
produces exactly that configuration. -/
theorem spec_c7_terminal_absorbing :
    (∀ (s : GameState) (w : Color),
       s.winner = some w → s.rollBtnDisabled = true → s.diceRoll = none →
       (∀ r, clickRollDice r s = s) ∧
       (∀ (c : Color) (i : Fin 4), onTokenClick c i s = s) ∧
       (∀ s', LudoStep s s' → s' = s ∧ s'.winner = some w)) ∧
    (∀ (c : Color) (d : Nat) (st : GameState),
       (finalizeMove c d st).winner = st.winner ∨
       ((finalizeMove c d st).rollBtnDisabled = true ∧
        (finalizeMove c d st).diceRoll = none)) := by
  constructor
  · intro s w hw hb hd
    refine ⟨fun r => clickRollDice_of_disabled r s hb,
            fun c i => onTokenClick_of_diceRoll_none c i s hd, ?_⟩
    intro s' hstep
    cases hstep with
    | roll r h1 h2 =>
      have he := clickRollDice_of_disabled r s hb
      exact ⟨he, by rw [he]; exact hw⟩
    | click c i =>
      have he := onTokenClick_of_diceRoll_none c i s hd
      exact ⟨he, by rw [he]; exact hw⟩
  · intro c d st
    simp only [finalizeMove, checkWin]
    split_ifs <;>
      first
        | exact Or.inl rfl
        | exact Or.inr ⟨rfl, rfl⟩

theorem spec_c7_witness :
    winState.winner = some .yellow ∧ winState.rollBtnDisabled = true ∧
    winState.diceRoll = none ∧ clickRollDice 3 winState = winState ∧
    onTokenClick .blue 0 winState = winState :=
  ⟨rfl, rfl, rfl,
   (spec_c7_terminal_absorbing.1 winState .yellow rfl rfl rfl).1 3,
   (spec_c7_terminal_absorbing.1 winState .yellow rfl rfl rfl).2.1 .blue 0⟩
